import Mathlib

/-!
Shallow embedding of the trival-monitor health-check service
(`src/service.ts`, `src/repository.ts`, `src/notifications.ts`).

Modelling conventions:
- Timestamps are integers (milliseconds since epoch); the source keeps
  JavaScript `Date` values and serialises incident bounds with
  `toISOString()`, an injective encoding of the millisecond value, so the
  integer carries the same information.
- JavaScript numbers are modelled exactly: integer-valued quantities as
  `Int`/`Nat`, quantities produced by division as `ℚ`.  `Math.round` is
  `jsRound`: round half toward positive infinity.
- The store is the in-memory repository of `src/repository.ts`
  (`createHealthCheckInMemoryRepository`): a list of records in insertion
  (chronological) order; `save` appends, `latest` takes the last `n`
  reversed, `inPeriod` filters by timestamp and reverses
  (most-recent-first).
- Sequential effects of `processHeatCheck` are reified as an event trace
  (`Event.save` then the notification dispatches), in the order the
  source performs them.
-/

namespace TrivalMonitor

/-- Outcome of one probe, as produced by `monitor.check()`:
fields `up`, `responseTime`, `err`, `statusCode` of `MonitorCheckResult`. -/
structure MonitorCheckResult where
  up : Bool
  responseTime : Int
  err : Option String
  statusCode : Option Int
deriving Repr, DecidableEq, Inhabited

/-- `HealthCheckResult` of `src/types.ts`: the probe outcome plus the
computed `consecutiveFailures` counter. -/
structure HealthCheckResult extends MonitorCheckResult where
  consecutiveFailures : Nat
deriving Repr, DecidableEq, Inhabited

/-- A stored row of the `health_checks` table (`HealthCheck` of
`src/db/schema.ts`): the result fields plus the insertion timestamp. -/
structure HealthCheck where
  timestamp : Int
  up : Bool
  responseTime : Int
  err : Option String
  statusCode : Option Int
  consecutiveFailures : Nat
deriving Repr, DecidableEq, Inhabited

/-- `repo.save` of the in-memory repository: append the record, stamped
with the given time. -/
def save (checks : List HealthCheck) (result : HealthCheckResult)
    (timestamp : Int) : List HealthCheck :=
  checks ++ [{ timestamp := timestamp
               up := result.up
               responseTime := result.responseTime
               err := result.err
               statusCode := result.statusCode
               consecutiveFailures := result.consecutiveFailures }]

/-- `repo.latest` of the in-memory repository:
`checks.slice(-limit).reverse()`.  JavaScript `slice(-0)` is `slice(0)`
(the whole array), hence the case split on `limit = 0`. -/
def latest (checks : List HealthCheck) (limit : Nat) : List HealthCheck :=
  if limit = 0 then checks.reverse
  else (checks.drop (checks.length - limit)).reverse

/-- `repo.inPeriod` of the in-memory repository: keep records with
`startTime <= timestamp <= endTime`, most-recent-first. -/
def inPeriod (checks : List HealthCheck) (startTime endTime : Int) :
    List HealthCheck :=
  (checks.filter
    (fun c => decide (startTime ≤ c.timestamp ∧ c.timestamp ≤ endTime))).reverse

/-- `getConsecutiveFailures` of `src/service.ts`: the counter of the most
recent stored record, 0 when the store is empty. -/
def getConsecutiveFailures (checks : List HealthCheck) : Nat :=
  match latest checks 1 with
  | [] => 0
  | r :: _ => r.consecutiveFailures

/-- The service configuration fields `processHeatCheck` reads:
`config.monitor.serviceName` and `config.monitor.gracePeriodFailures`. -/
structure MonitorConfig where
  serviceName : String
  gracePeriodFailures : Nat
deriving Repr, DecidableEq, Inhabited

/-- A notification dispatched to one handler: the arguments of
`sendDownNotification` resp. `sendUpNotification`. -/
inductive Notification where
  | down (serviceName : String) (consecutiveFailures : Nat) (err : Option String)
  | up (serviceName : String) (downtimeChecks : Nat)
deriving Repr, DecidableEq

/-- One observable effect of `processHeatCheck`, in program order:
persisting the record, or invoking one handler with a notification. -/
inductive Event where
  | save (r : HealthCheckResult)
  | notify (handler : String) (n : Notification)
deriving Repr, DecidableEq

/-- The outcome of one `processHeatCheck` call: the updated store, the
returned result, and the trace of effects in program order. -/
structure ProcessOutcome where
  store : List HealthCheck
  result : HealthCheckResult
  events : List Event
deriving Repr, DecidableEq

/-- `processHeatCheck` of `src/service.ts`, given the probe outcome
`checkResult` (the value of `monitor.check()`), the registered handlers
(identified by name) and the current time.  The source saves the record,
then, on the threshold-crossing failure, dispatches a DOWN notification
to every handler, and on a recovery from at least `gracePeriodFailures`
failures dispatches an UP notification to every handler. -/
def processHeatCheck (config : MonitorConfig) (handlers : List String)
    (store : List HealthCheck) (checkResult : MonitorCheckResult)
    (now : Int) : ProcessOutcome :=
  let consecutiveFailures := getConsecutiveFailures store
  let newConsecutiveFailures :=
    if checkResult.up then 0 else consecutiveFailures + 1
  let result : HealthCheckResult :=
    { toMonitorCheckResult := checkResult
      consecutiveFailures := newConsecutiveFailures }
  let newStore := save store result now
  let notifications : List Event :=
    if checkResult.up = false ∧
        newConsecutiveFailures = config.gracePeriodFailures then
      handlers.map (fun h => Event.notify h
        (Notification.down config.serviceName newConsecutiveFailures
          checkResult.err))
    else if checkResult.up = true ∧
        config.gracePeriodFailures ≤ consecutiveFailures then
      handlers.map (fun h => Event.notify h
        (Notification.up config.serviceName consecutiveFailures))
    else []
  { store := newStore
    result := result
    events := Event.save result :: notifications }

/-- Iterated `processHeatCheck` over a list of timed probe outcomes,
accumulating the full event trace. -/
def runChecks (config : MonitorConfig) (handlers : List String)
    (store : List HealthCheck) :
    List (MonitorCheckResult × Int) → List HealthCheck × List Event
  | [] => (store, [])
  | (c, t) :: rest =>
    let o := processHeatCheck config handlers store c t
    let r := runChecks config handlers o.store rest
    (r.1, o.events ++ r.2)

/-- The notification events of a trace (everything but `Event.save`). -/
def notifyEvents (events : List Event) : List Event :=
  events.filter (fun e => match e with
    | Event.save _ => false
    | Event.notify _ _ => true)

/-!
Statistics engine (`getStats` and `calculateIncidents` of `src/service.ts`).
JavaScript `Math.round` rounds half toward positive infinity, which is
exactly Mathlib `round` on `ℚ` (`round_eq : round x = ⌊x + 1 / 2⌋`).
-/

/-- `Incident` of `src/types.ts`.  The source stores `startTime` and
`endTime` as ISO strings of the millisecond timestamps; we keep the
millisecond values. -/
structure Incident where
  startTime : Int
  endTime : Option Int
  durationMinutes : Int
  errorMessage : String
deriving Repr, DecidableEq, Inhabited

/-- The JavaScript expression `check.err || "Unknown error"`: `null` and
the empty string are falsy, so both fall back to `"Unknown error"`. -/
def errOrUnknown (err : Option String) : String :=
  match err with
  | none => "Unknown error"
  | some s => if s = "" then "Unknown error" else s

/-- The loop body of `calculateIncidents`: scan the chronological record
list with the `currentIncident` state.  A closed incident is emitted
when a succeeding record ends it; a still-open incident at the end of
the scan is emitted with its duration measured against wall-clock
`now`.  Emission order is the push order of the source. -/
def scanIncidents (now : Int) :
    List HealthCheck → Option Incident → List Incident
  | [], none => []
  | [], some cur =>
    [{ cur with
        durationMinutes := round (((now - cur.startTime : Int) : ℚ) / 60000) }]
  | c :: rest, none =>
    if c.up then scanIncidents now rest none
    else scanIncidents now rest (some
      { startTime := c.timestamp
        endTime := none
        durationMinutes := 0
        errorMessage := errOrUnknown c.err })
  | c :: rest, some cur =>
    if c.up then
      { cur with
          endTime := some c.timestamp
          durationMinutes :=
            round (((c.timestamp - cur.startTime : Int) : ℚ) / 60000) }
        :: scanIncidents now rest none
    else scanIncidents now rest (some cur)

/-- `calculateIncidents` of `src/service.ts`: reverse the
most-recent-first list to chronological order, scan, and return
most-recent-first. -/
def calculateIncidents (checks : List HealthCheck) (now : Int) :
    List Incident :=
  (scanIncidents now checks.reverse none).reverse

/-- `Stats` of `src/types.ts`.  `lastCheckTime` is an ISO string in the
source, the empty string on the empty range; here the millisecond value,
`none` on the empty range. -/
structure Stats where
  totalChecks : Nat
  successfulChecks : Nat
  failedChecks : Nat
  uptimePercentage : ℚ
  averageResponseTime : Int
  currentStatus : String
  lastCheckTime : Option Int
  incidents : List Incident
deriving Repr, DecidableEq, Inhabited

/-- The zero-valued `Stats` returned for an empty range. -/
def emptyStats : Stats :=
  { totalChecks := 0
    successfulChecks := 0
    failedChecks := 0
    uptimePercentage := 0
    averageResponseTime := 0
    currentStatus := "down"
    lastCheckTime := none
    incidents := [] }

/-- `getStats` of `src/service.ts`: resolve the optional range bounds
(`end` defaults to now, `start` to 24 hours before now), fetch the
records in range most-recent-first, and compute the aggregate fields. -/
def getStats (store : List HealthCheck) (startTime endTime : Option Int)
    (now : Int) : Stats :=
  let endT := endTime.getD now
  let startT := startTime.getD (now - 24 * 60 * 60 * 1000)
  let checks := inPeriod store startT endT
  match checks with
  | [] => emptyStats
  | c0 :: _ =>
    let successfulChecks := (checks.filter (fun c => c.up)).length
    let failedChecks := checks.length - successfulChecks
    let uptimePercentage : ℚ :=
      ((successfulChecks : ℚ) / (checks.length : ℚ)) * 100
    let totalResponseTime : Int :=
      checks.foldl (fun sum c => sum + c.responseTime) 0
    let averageResponseTime : Int :=
      round ((totalResponseTime : ℚ) / (checks.length : ℚ))
    { totalChecks := checks.length
      successfulChecks := successfulChecks
      failedChecks := failedChecks
      uptimePercentage := (round (uptimePercentage * 100) : ℚ) / 100
      averageResponseTime := averageResponseTime
      currentStatus := if c0.up then "up" else "down"
      lastCheckTime := some c0.timestamp
      incidents := calculateIncidents checks now }

/-!
Specification-side restatement of incident segmentation, used to check
the scan of `calculateIncidents` against the wording of the spec: an
incident opens at the first failing record of a maximal failing run,
closes at the first succeeding record after the run, and an open run at
the end of the range is reported with `endTime = null` and a duration
measured against wall-clock now.
-/

/-- A closed incident as the spec words it: `startTime` and
`errorMessage` from the first failing record of the run, `endTime` from
the first succeeding record after the run,
`durationMinutes = round((endTime - startTime) / 60000)`. -/
def closeIncident (first succRec : HealthCheck) : Incident :=
  { startTime := first.timestamp
    endTime := some succRec.timestamp
    durationMinutes :=
      round (((succRec.timestamp - first.timestamp : Int) : ℚ) / 60000)
    errorMessage := errOrUnknown first.err }

/-- A still-open incident as the spec words it: `endTime = null`,
`durationMinutes = round((now - startTime) / 60000)` against wall-clock
now. -/
def openIncidentAt (first : HealthCheck) (now : Int) : Incident :=
  { startTime := first.timestamp
    endTime := none
    durationMinutes := round (((now - first.timestamp : Int) : ℚ) / 60000)
    errorMessage := errOrUnknown first.err }

/-- Incident segmentation as the spec words it, on the chronological
list: skip succeeding records; at a failing record, the run extends to
the first succeeding record after it (or to the end of the list), and
the records between the first failure and the closing success do not
contribute anything. -/
def segmentIncidents (now : Int) : List HealthCheck → List Incident
  | [] => []
  | c :: rest =>
    if c.up then segmentIncidents now rest
    else
      match h : rest.dropWhile (fun x => !x.up) with
      | [] => [openIncidentAt c now]
      | s :: rest2 => closeIncident c s :: segmentIncidents now rest2
termination_by l => l.length
decreasing_by
  · simp only [List.length_cons]; omega
  · rename_i tail hup
    have hd : (List.dropWhile (fun x => !x.up) tail).length ≤ tail.length :=
      (List.dropWhile_sublist _).length_le
    rw [h] at hd
    simp only [List.length_cons] at hd ⊢
    omega

/-!
Notification-handler error model, for the dispatch loop of
`processHeatCheck` and `createSMTPNotificationHandler` of
`src/notifications.ts`.  A handler invocation either resolves or
rejects, and prints log lines of its own.
-/

deriving instance DecidableEq for Except

/-- The observable behaviour of one handler invocation: resolve or
reject, plus the log lines the handler itself printed. -/
structure HandlerOutput where
  result : Except String Unit
  log : List String
deriving Repr, DecidableEq

/-- A notification handler, as the behaviour of one invocation. -/
def Handler : Type := Notification → HandlerOutput

/-- The dispatch loop
`notificationHandlers.forEach(async (handler) => await handler.send...)`
of `processHeatCheck`: every callback is started independently with the
same notification; the returned promises are not awaited, so a
rejection is never observed by the service. -/
def dispatchNotifications (handlers : List Handler) (n : Notification) :
    List HandlerOutput :=
  handlers.map (fun h => h n)

/-- One `processHeatCheck` call with behavioural handlers: the updated
store, the returned result, the log lines emitted by the service body
itself, and the per-handler invocation outcomes. -/
structure ProcessRun where
  store : List HealthCheck
  result : HealthCheckResult
  serviceLog : List String
  handlerRuns : List HandlerOutput
deriving Repr, DecidableEq

/-- `processHeatCheck` of `src/service.ts` with behavioural handlers.
The body contains no try/catch and no logging statement, so
`serviceLog` is always empty; the handler outcomes are collected but
never inspected by the service. -/
def processHeatCheckRun (config : MonitorConfig) (handlers : List Handler)
    (store : List HealthCheck) (checkResult : MonitorCheckResult)
    (now : Int) : ProcessRun :=
  let consecutiveFailures := getConsecutiveFailures store
  let newConsecutiveFailures :=
    if checkResult.up then 0 else consecutiveFailures + 1
  let result : HealthCheckResult :=
    { toMonitorCheckResult := checkResult
      consecutiveFailures := newConsecutiveFailures }
  let newStore := save store result now
  let handlerRuns :=
    if checkResult.up = false ∧
        newConsecutiveFailures = config.gracePeriodFailures then
      dispatchNotifications handlers
        (Notification.down config.serviceName newConsecutiveFailures
          checkResult.err)
    else if checkResult.up = true ∧
        config.gracePeriodFailures ≤ consecutiveFailures then
      dispatchNotifications handlers
        (Notification.up config.serviceName consecutiveFailures)
    else []
  { store := newStore
    result := result
    serviceLog := []
    handlerRuns := handlerRuns }

/-- `createSMTPNotificationHandler` of `src/notifications.ts`, with the
email service modelled by the outcome of its `send` call, keyed by the
subject line.  On a send failure the handler logs an `[SMTP]` line of
its own and re-throws the error. -/
def createSMTPNotificationHandler (send : String → Except String Unit) :
    Handler :=
  fun n =>
    match n with
    | Notification.down serviceName _ _ =>
      match send ("[DOWN] " ++ serviceName ++ " is DOWN") with
      | Except.ok _ => { result := Except.ok (), log := [] }
      | Except.error e =>
        { result := Except.error e
          log := ["[SMTP] Failed to send DOWN notification: " ++ e] }
    | Notification.up serviceName _ =>
      match send ("[UP] " ++ serviceName ++ " is UP") with
      | Except.ok _ => { result := Except.ok (), log := [] }
      | Except.error e =>
        { result := Except.error e
          log := ["[SMTP] Failed to send UP notification: " ++ e] }

/-!
Concrete fixtures used by the examples of the testable properties.
-/

/-- A concrete store of 10 records, 7 successful and 3 failing. -/
def tenChecks : List HealthCheck :=
  [⟨1, true, 10, none, some 200, 0⟩,
   ⟨2, true, 20, none, some 200, 0⟩,
   ⟨3, false, 30, some "e1", none, 1⟩,
   ⟨4, true, 40, none, some 200, 0⟩,
   ⟨5, false, 50, some "e2", none, 1⟩,
   ⟨6, true, 60, none, some 200, 0⟩,
   ⟨7, true, 70, none, some 200, 0⟩,
   ⟨8, false, 80, some "e3", none, 1⟩,
   ⟨9, true, 90, none, some 200, 0⟩,
   ⟨10, true, 100, none, some 200, 0⟩]

/-- The chronological sequence of the C4 example:
up, down(errA), down(errB), up, up, down(errC), up at unit spacing. -/
def sevenSeq : List HealthCheck :=
  [⟨0, true, 1, none, some 200, 0⟩,
   ⟨1, false, 1, some "errA", none, 1⟩,
   ⟨2, false, 1, some "errB", none, 2⟩,
   ⟨3, true, 1, none, some 200, 0⟩,
   ⟨4, true, 1, none, some 200, 0⟩,
   ⟨5, false, 1, some "errC", none, 1⟩,
   ⟨6, true, 1, none, some 200, 0⟩]

/-- The chronological sequence of the C6 example: up, down, down. -/
def ongoingSeq : List HealthCheck :=
  [⟨0, true, 1, none, some 200, 0⟩,
   ⟨1, false, 1, some "e1", none, 1⟩,
   ⟨2, false, 1, some "e2", none, 2⟩]

/-!
Supporting lemmas.
-/

theorem drop_length_sub_one {α : Type} (s : List α) :
    s.drop (s.length - 1) = s.getLast?.toList := by
  induction s with
  | nil => rfl
  | cons a t ih =>
    cases t with
    | nil => rfl
    | cons b t2 =>
      have h1 : (a :: b :: t2).length - 1 = (b :: t2).length := by
        simp
      rw [h1]
      have h2 : (a :: b :: t2).drop (b :: t2).length = (b :: t2).drop t2.length := by
        simp [List.drop]
      rw [h2]
      have h3 : (b :: t2).length - 1 = t2.length := by simp
      rw [h3] at ih
      rw [ih, List.getLast?_cons_cons]

/-- The previous-count read of `getConsecutiveFailures`: the
`consecutiveFailures` field of the single most recent record, 0 when the
store is empty. -/
theorem getConsecutiveFailures_eq_getLast (s : List HealthCheck) :
    getConsecutiveFailures s =
      (s.getLast?.map HealthCheck.consecutiveFailures).getD 0 := by
  unfold getConsecutiveFailures latest
  rw [if_neg (by omega : ¬ (1 = 0))]
  rw [drop_length_sub_one]
  cases s.getLast? <;> simp

theorem getLast?_save (s : List HealthCheck) (r : HealthCheckResult)
    (t : Int) :
    (save s r t).getLast? = some
      { timestamp := t
        up := r.up
        responseTime := r.responseTime
        err := r.err
        statusCode := r.statusCode
        consecutiveFailures := r.consecutiveFailures } := by
  unfold save
  rw [List.getLast?_concat]

theorem getConsecutiveFailures_save (s : List HealthCheck)
    (r : HealthCheckResult) (t : Int) :
    getConsecutiveFailures (save s r t) = r.consecutiveFailures := by
  rw [getConsecutiveFailures_eq_getLast, getLast?_save]
  rfl

/-!
Claims about the grace-period engine.
-/

/-- C1: processing a failing probe outcome from previous count `p` sets
the returned and persisted `consecutiveFailures` to `p + 1`, and a DOWN
notification is dispatched to every handler iff `p + 1` equals the
threshold exactly; in particular failures beyond the threshold dispatch
nothing. -/
theorem processHeatCheck_down_edge
    (config : MonitorConfig) (handlers : List String)
    (store : List HealthCheck) (checkResult : MonitorCheckResult)
    (now : Int) (p : Nat)
    (hp : getConsecutiveFailures store = p)
    (hup : checkResult.up = false) :
    (processHeatCheck config handlers store checkResult now).result.consecutiveFailures
        = p + 1 ∧
    getConsecutiveFailures
        (processHeatCheck config handlers store checkResult now).store = p + 1 ∧
    (processHeatCheck config handlers store checkResult now).events =
      Event.save
        (processHeatCheck config handlers store checkResult now).result ::
        (if p + 1 = config.gracePeriodFailures then
          handlers.map (fun h => Event.notify h
            (Notification.down config.serviceName (p + 1) checkResult.err))
        else []) := by
  by_cases hT : p + 1 = config.gracePeriodFailures <;>
    simp [processHeatCheck, hup, hp, hT, getConsecutiveFailures_save]

/-- Witness for C1 at a concrete input: previous count 1, threshold 2,
two handlers, failing outcome: the count becomes 2 and both handlers
receive the DOWN notification. -/
theorem processHeatCheck_down_edge_witness :
    (processHeatCheck ⟨"svc", 2⟩ ["h1", "h2"]
        [⟨0, false, 5, some "e0", none, 1⟩]
        ⟨false, 7, some "boom", none⟩ 10).result.consecutiveFailures = 2 ∧
    getConsecutiveFailures
      (processHeatCheck ⟨"svc", 2⟩ ["h1", "h2"]
        [⟨0, false, 5, some "e0", none, 1⟩]
        ⟨false, 7, some "boom", none⟩ 10).store = 2 ∧
    (processHeatCheck ⟨"svc", 2⟩ ["h1", "h2"]
        [⟨0, false, 5, some "e0", none, 1⟩]
        ⟨false, 7, some "boom", none⟩ 10).events =
      Event.save
        (processHeatCheck ⟨"svc", 2⟩ ["h1", "h2"]
          [⟨0, false, 5, some "e0", none, 1⟩]
          ⟨false, 7, some "boom", none⟩ 10).result ::
        (if 1 + 1 = (2 : Nat) then
          ["h1", "h2"].map (fun h => Event.notify h
            (Notification.down "svc" (1 + 1) (some "boom")))
        else []) :=
  processHeatCheck_down_edge ⟨"svc", 2⟩ ["h1", "h2"]
    [⟨0, false, 5, some "e0", none, 1⟩] ⟨false, 7, some "boom", none⟩ 10 1
    (by decide) (by decide)

/-- C2: processing a successful probe outcome from previous count `p`
sets the returned and persisted `consecutiveFailures` to 0, and an UP
notification is dispatched to every handler iff `p` is at least the
threshold; the downtime-check count passed to every handler is `p`
itself. -/
theorem processHeatCheck_up_recovery
    (config : MonitorConfig) (handlers : List String)
    (store : List HealthCheck) (checkResult : MonitorCheckResult)
    (now : Int) (p : Nat)
    (hp : getConsecutiveFailures store = p)
    (hup : checkResult.up = true) :
    (processHeatCheck config handlers store checkResult now).result.consecutiveFailures
        = 0 ∧
    getConsecutiveFailures
        (processHeatCheck config handlers store checkResult now).store = 0 ∧
    (processHeatCheck config handlers store checkResult now).events =
      Event.save
        (processHeatCheck config handlers store checkResult now).result ::
        (if config.gracePeriodFailures ≤ p then
          handlers.map (fun h => Event.notify h
            (Notification.up config.serviceName p))
        else []) := by
  by_cases hT : config.gracePeriodFailures ≤ p <;>
    simp [processHeatCheck, hup, hp, hT, getConsecutiveFailures_save]

/-- Witness for C2 at a concrete input: previous count 5, threshold 3,
successful outcome: the count resets to 0 and both handlers receive the
UP notification carrying 5 (the accumulated count, beyond the
threshold). -/
theorem processHeatCheck_up_recovery_witness :
    (processHeatCheck ⟨"svc", 3⟩ ["h1", "h2"]
        [⟨0, false, 5, some "e0", none, 5⟩]
        ⟨true, 7, none, some 200⟩ 10).result.consecutiveFailures = 0 ∧
    getConsecutiveFailures
      (processHeatCheck ⟨"svc", 3⟩ ["h1", "h2"]
        [⟨0, false, 5, some "e0", none, 5⟩]
        ⟨true, 7, none, some 200⟩ 10).store = 0 ∧
    (processHeatCheck ⟨"svc", 3⟩ ["h1", "h2"]
        [⟨0, false, 5, some "e0", none, 5⟩]
        ⟨true, 7, none, some 200⟩ 10).events =
      Event.save
        (processHeatCheck ⟨"svc", 3⟩ ["h1", "h2"]
          [⟨0, false, 5, some "e0", none, 5⟩]
          ⟨true, 7, none, some 200⟩ 10).result ::
        (if (3 : Nat) ≤ 5 then
          ["h1", "h2"].map (fun h => Event.notify h
            (Notification.up "svc" 5))
        else []) :=
  processHeatCheck_up_recovery ⟨"svc", 3⟩ ["h1", "h2"]
    [⟨0, false, 5, some "e0", none, 5⟩] ⟨true, 7, none, some 200⟩ 10 5
    (by decide) (by decide)

theorem notifyEvents_append (a b : List Event) :
    notifyEvents (a ++ b) = notifyEvents a ++ notifyEvents b := by
  unfold notifyEvents
  rw [List.filter_append]

theorem runChecks_append (config : MonitorConfig) (handlers : List String)
    (a b : List (MonitorCheckResult × Int)) :
    ∀ store,
      runChecks config handlers store (a ++ b) =
        ((runChecks config handlers
            (runChecks config handlers store a).1 b).1,
          (runChecks config handlers store a).2 ++
            (runChecks config handlers
              (runChecks config handlers store a).1 b).2) := by
  induction a with
  | nil => intro store; simp [runChecks]
  | cons ct rest ih =>
    intro store
    obtain ⟨c, t⟩ := ct
    simp only [List.cons_append, runChecks, List.append_eq]
    rw [ih]
    simp

/-- A failing check below the threshold is silent and advances the
persisted counter by one. -/
theorem runChecks_fail_silent (config : MonitorConfig)
    (handlers : List String) (outs : List (MonitorCheckResult × Int)) :
    ∀ store,
      (∀ x ∈ outs, x.1.up = false) →
      getConsecutiveFailures store + outs.length <
        config.gracePeriodFailures →
      notifyEvents (runChecks config handlers store outs).2 = [] ∧
      getConsecutiveFailures (runChecks config handlers store outs).1 =
        getConsecutiveFailures store + outs.length := by
  induction outs with
  | nil => intro store _ _; simp [runChecks, notifyEvents]
  | cons ct rest ih =>
    intro store hall hlt
    obtain ⟨c, t⟩ := ct
    have hcup : c.up = false := hall (c, t) (by simp)
    have hne : ¬ (getConsecutiveFailures store + 1 =
        config.gracePeriodFailures) := by
      simp only [List.length_cons] at hlt
      omega
    have hstep : (processHeatCheck config handlers store c t).events =
        [Event.save (processHeatCheck config handlers store c t).result] := by
      simp [processHeatCheck, hcup, hne]
    have hcf : getConsecutiveFailures
        (processHeatCheck config handlers store c t).store =
        getConsecutiveFailures store + 1 := by
      simp [processHeatCheck, hcup, getConsecutiveFailures_save]
    have hrest := ih (processHeatCheck config handlers store c t).store
      (fun x hx => hall x (by simp [hx]))
      (by simp only [List.length_cons] at hlt; omega)
    simp only [runChecks]
    rw [notifyEvents_append, hstep]
    refine ⟨?_, ?_⟩
    · rw [hrest.1]
      simp [notifyEvents]
    · rw [hrest.2, hcf]
      simp only [List.length_cons]
      omega

/-- C5: from a healthy state, fewer than threshold-many consecutive
failing checks followed by a successful check dispatch no notification
of either kind at any step, and the record persisted for the successful
check has `consecutiveFailures = 0`. -/
theorem subthreshold_blip_silent (config : MonitorConfig)
    (handlers : List String) (store : List HealthCheck)
    (outs : List (MonitorCheckResult × Int))
    (succOut : MonitorCheckResult × Int)
    (h0 : getConsecutiveFailures store = 0)
    (hfail : ∀ x ∈ outs, x.1.up = false)
    (hlen : outs.length < config.gracePeriodFailures)
    (hsucc : succOut.1.up = true) :
    notifyEvents
      (runChecks config handlers store (outs ++ [succOut])).2 = [] ∧
    getConsecutiveFailures
      (runChecks config handlers store (outs ++ [succOut])).1 = 0 := by
  obtain ⟨c, t⟩ := succOut
  have hfailrun := runChecks_fail_silent config handlers outs store hfail
    (by omega)
  have hmid : getConsecutiveFailures
      (runChecks config handlers store outs).1 = outs.length := by
    rw [hfailrun.2, h0]
    omega
  have hne : ¬ (config.gracePeriodFailures ≤
      getConsecutiveFailures (runChecks config handlers store outs).1) := by
    rw [hmid]; omega
  rw [runChecks_append]
  refine ⟨?_, ?_⟩
  · rw [notifyEvents_append, hfailrun.1]
    simp only [List.nil_append]
    simp only [runChecks]
    rw [notifyEvents_append]
    have hstep : (processHeatCheck config handlers
        (runChecks config handlers store outs).1 c t).events =
        [Event.save (processHeatCheck config handlers
          (runChecks config handlers store outs).1 c t).result] := by
      simp at hsucc
      simp [processHeatCheck, hsucc, hne]
    rw [hstep]
    simp [notifyEvents, runChecks]
  · simp only [runChecks]
    simp at hsucc
    simp [processHeatCheck, hsucc, runChecks, getConsecutiveFailures_save]

/-- Witness for C5 at a concrete input: threshold 3, two failures then a
success produce no notification events and reset the counter to 0. -/
theorem subthreshold_blip_silent_witness :
    notifyEvents
      (runChecks ⟨"svc", 3⟩ ["h1"] []
        ([(⟨false, 5, some "e1", none⟩, 1), (⟨false, 5, some "e2", none⟩, 2)]
          ++ [(⟨true, 4, none, some 200⟩, 3)])).2 = [] ∧
    getConsecutiveFailures
      (runChecks ⟨"svc", 3⟩ ["h1"] []
        ([(⟨false, 5, some "e1", none⟩, 1), (⟨false, 5, some "e2", none⟩, 2)]
          ++ [(⟨true, 4, none, some 200⟩, 3)])).1 = 0 :=
  subthreshold_blip_silent ⟨"svc", 3⟩ ["h1"] []
    [(⟨false, 5, some "e1", none⟩, 1), (⟨false, 5, some "e2", none⟩, 2)]
    (⟨true, 4, none, some 200⟩, 3)
    (by decide) (by decide) (by decide) (by decide)

/-- The shape of the event trace of one `processHeatCheck` call: the
save first, then the notification dispatches of the branch taken. -/
theorem processHeatCheck_events_eq (config : MonitorConfig)
    (handlers : List String) (store : List HealthCheck)
    (c : MonitorCheckResult) (now : Int) :
    (processHeatCheck config handlers store c now).events =
      Event.save (processHeatCheck config handlers store c now).result ::
        (if c.up = false ∧ getConsecutiveFailures store + 1 =
            config.gracePeriodFailures then
          handlers.map (fun h => Event.notify h
            (Notification.down config.serviceName
              (getConsecutiveFailures store + 1) c.err))
        else if c.up = true ∧ config.gracePeriodFailures ≤
            getConsecutiveFailures store then
          handlers.map (fun h => Event.notify h
            (Notification.up config.serviceName
              (getConsecutiveFailures store)))
        else []) := by
  cases hu : c.up
  · by_cases hT : getConsecutiveFailures store + 1 =
        config.gracePeriodFailures <;>
      simp [processHeatCheck, hu, hT]
  · by_cases hT : config.gracePeriodFailures ≤
        getConsecutiveFailures store <;>
      simp [processHeatCheck, hu, hT]

/-- C9: every `processHeatCheck` call derives the previous count solely
from the single most recent stored record (0 when the store is empty):
the count read is the `consecutiveFailures` field of the last record,
two stores with the same last record produce the same result and the
same events, the new record (all probe outcome fields plus the updated
counter) is appended to the store, and the save event precedes every
notification event in the trace. -/
theorem processHeatCheck_latest_only (config : MonitorConfig)
    (handlers : List String) (store : List HealthCheck)
    (checkResult : MonitorCheckResult) (now : Int) :
    getConsecutiveFailures store =
      (store.getLast?.map HealthCheck.consecutiveFailures).getD 0 ∧
    (processHeatCheck config handlers store checkResult now).store =
      save store
        (processHeatCheck config handlers store checkResult now).result now ∧
    (processHeatCheck config handlers store checkResult now).result.toMonitorCheckResult
      = checkResult ∧
    (∃ tail,
      (processHeatCheck config handlers store checkResult now).events =
        Event.save
          (processHeatCheck config handlers store checkResult now).result ::
          tail ∧
      ∀ e ∈ tail, ∃ h n, e = Event.notify h n) ∧
    (∀ store2, store2.getLast? = store.getLast? →
      (processHeatCheck config handlers store2 checkResult now).result =
        (processHeatCheck config handlers store checkResult now).result ∧
      (processHeatCheck config handlers store2 checkResult now).events =
        (processHeatCheck config handlers store checkResult now).events) := by
  refine ⟨getConsecutiveFailures_eq_getLast store, rfl, rfl, ?_, ?_⟩
  · refine ⟨_,
      processHeatCheck_events_eq config handlers store checkResult now, ?_⟩
    intro e he
    have hmap : ∀ (l : List String) (n : Notification),
        e ∈ l.map (fun h => Event.notify h n) →
        ∃ h n, e = Event.notify h n := by
      intro l n hm
      simp only [List.mem_map] at hm
      obtain ⟨h, _, rfl⟩ := hm
      exact ⟨h, n, rfl⟩
    split at he
    · exact hmap _ _ he
    · split at he
      · exact hmap _ _ he
      · exact absurd he (List.not_mem_nil e)
  · intro store2 hst
    have hcf : getConsecutiveFailures store2 = getConsecutiveFailures store := by
      rw [getConsecutiveFailures_eq_getLast, getConsecutiveFailures_eq_getLast,
        hst]
    constructor <;> simp [processHeatCheck, hcf]

/-- Witness for C9: applying the theorem at a concrete input, in
particular instantiating the last-record invariance for two different
stores sharing the same most recent record. -/
theorem processHeatCheck_latest_only_witness :
    (processHeatCheck ⟨"svc", 3⟩ ["h1"]
        [⟨0, true, 9, none, some 200, 0⟩, ⟨1, false, 5, some "e", none, 4⟩]
        ⟨true, 7, none, some 200⟩ 10).result =
      (processHeatCheck ⟨"svc", 3⟩ ["h1"]
        [⟨1, false, 5, some "e", none, 4⟩]
        ⟨true, 7, none, some 200⟩ 10).result ∧
    (processHeatCheck ⟨"svc", 3⟩ ["h1"]
        [⟨0, true, 9, none, some 200, 0⟩, ⟨1, false, 5, some "e", none, 4⟩]
        ⟨true, 7, none, some 200⟩ 10).events =
      (processHeatCheck ⟨"svc", 3⟩ ["h1"]
        [⟨1, false, 5, some "e", none, 4⟩]
        ⟨true, 7, none, some 200⟩ 10).events :=
  (processHeatCheck_latest_only ⟨"svc", 3⟩ ["h1"]
    [⟨1, false, 5, some "e", none, 4⟩] ⟨true, 7, none, some 200⟩ 10).2.2.2.2
    [⟨0, true, 9, none, some 200, 0⟩, ⟨1, false, 5, some "e", none, 4⟩]
    (by decide)

/-!
Claims about the statistics engine.
-/

/-- C7: `getStats` over a time range containing no records returns the
zero-valued `Stats`: all counters 0, `uptimePercentage = 0`,
`averageResponseTime = 0`, `currentStatus = "down"`, no incidents.  The
embedding is a total function, so no exception is possible. -/
theorem getStats_empty_range (store : List HealthCheck) (s e now : Int)
    (hempty : inPeriod store s e = []) :
    getStats store (some s) (some e) now =
      { totalChecks := 0
        successfulChecks := 0
        failedChecks := 0
        uptimePercentage := 0
        averageResponseTime := 0
        currentStatus := "down"
        lastCheckTime := none
        incidents := [] } := by
  simp only [getStats, Option.getD_some, hempty]
  rfl

/-- Witness for C7: a store whose only record lies outside the queried
range. -/
theorem getStats_empty_range_witness :
    getStats [⟨100, true, 5, none, some 200, 0⟩] (some 0) (some 50) 200 =
      { totalChecks := 0
        successfulChecks := 0
        failedChecks := 0
        uptimePercentage := 0
        averageResponseTime := 0
        currentStatus := "down"
        lastCheckTime := none
        incidents := [] } :=
  getStats_empty_range [⟨100, true, 5, none, some 200, 0⟩] 0 50 200
    (by decide)

theorem foldl_responseTime (l : List HealthCheck) (init : Int) :
    l.foldl (fun sum c => sum + c.responseTime) init =
      init + (l.map (fun c => c.responseTime)).sum := by
  induction l generalizing init with
  | nil => simp
  | cons c t ih =>
    simp only [List.foldl_cons, List.map_cons, List.sum_cons, ih]
    ring

/-- `getStats` on a non-empty range delegates its `incidents` field to
`calculateIncidents` on the in-range records. -/
theorem getStats_incidents_eq (store : List HealthCheck) (s e now : Int)
    (hne : inPeriod store s e ≠ []) :
    (getStats store (some s) (some e) now).incidents =
      calculateIncidents (inPeriod store s e) now := by
  simp only [getStats, Option.getD_some]
  cases hch : inPeriod store s e with
  | nil => exact absurd hch hne
  | cons c0 rest => simp [hch]

theorem uptime_seven_of_ten :
    (getStats tenChecks (some 0) (some 20) 100).uptimePercentage = 70 := by
  norm_num [getStats, tenChecks, inPeriod, round_eq]

/-- C8: on a non-empty range of `n` records, `getStats` counts
`successfulChecks` as the records with `up = true`,
`failedChecks = n - successfulChecks`, rounds
`successfulChecks / n * 100` half-up to 2 decimals for
`uptimePercentage`, and rounds the mean response time half-up to an
integer; 7 successes out of 10 yield `uptimePercentage = 70` exactly. -/
theorem getStats_aggregates (store : List HealthCheck) (s e now : Int)
    (hne : inPeriod store s e ≠ []) :
    (getStats store (some s) (some e) now).totalChecks =
      (inPeriod store s e).length ∧
    (getStats store (some s) (some e) now).successfulChecks =
      ((inPeriod store s e).filter (fun c => c.up)).length ∧
    (getStats store (some s) (some e) now).failedChecks =
      (inPeriod store s e).length -
        ((inPeriod store s e).filter (fun c => c.up)).length ∧
    (getStats store (some s) (some e) now).uptimePercentage =
      (round (((((inPeriod store s e).filter (fun c => c.up)).length : ℚ) /
          ((inPeriod store s e).length : ℚ) * 100) * 100) : ℚ) / 100 ∧
    (getStats store (some s) (some e) now).averageResponseTime =
      round ((((inPeriod store s e).map (fun c => c.responseTime)).sum : ℚ) /
        ((inPeriod store s e).length : ℚ)) ∧
    (getStats tenChecks (some 0) (some 20) 100).uptimePercentage = 70 := by
  refine ⟨?_, ?_, ?_, ?_, ?_, uptime_seven_of_ten⟩ <;>
    · simp only [getStats, Option.getD_some]
      cases hch : inPeriod store s e with
      | nil => exact absurd hch hne
      | cons c0 rest =>
        simp [hch, foldl_responseTime, Function.comp_def]

/-- Witness for C8: applying the aggregate theorem to the concrete
10-record store. -/
theorem getStats_aggregates_witness :
    inPeriod tenChecks 0 20 ≠ [] ∧
    (getStats tenChecks (some 0) (some 20) 100).totalChecks =
      (inPeriod tenChecks 0 20).length :=
  ⟨by decide, (getStats_aggregates tenChecks 0 20 100 (by decide)).1⟩

/-- Scanning with an open incident and no succeeding record left: the
open incident is emitted alone, with its duration measured against
wall-clock now. -/
theorem scanIncidents_some_end (now : Int) (l : List HealthCheck) :
    ∀ cur, l.dropWhile (fun x => !x.up) = [] →
      scanIncidents now l (some cur) =
        [{ cur with
            durationMinutes :=
              round (((now - cur.startTime : Int) : ℚ) / 60000) }] := by
  induction l with
  | nil => intro cur _; rfl
  | cons c rest ih =>
    intro cur hdw
    by_cases hc : c.up = true
    · rw [List.dropWhile_cons_of_neg (by simp [hc])] at hdw
      exact absurd hdw (by simp)
    · have hcf : c.up = false := by simpa using hc
      rw [List.dropWhile_cons_of_pos (by simp [hcf])] at hdw
      have hstep : scanIncidents now (c :: rest) (some cur) =
          scanIncidents now rest (some cur) := by
        simp [scanIncidents, hcf]
      rw [hstep]
      exact ih cur hdw

/-- Scanning with an open incident: the first succeeding record closes
it, and the scan continues after that record with no open incident. -/
theorem scanIncidents_some_close (now : Int) (l : List HealthCheck) :
    ∀ cur s rest2, l.dropWhile (fun x => !x.up) = s :: rest2 →
      scanIncidents now l (some cur) =
        { cur with
            endTime := some s.timestamp
            durationMinutes :=
              round (((s.timestamp - cur.startTime : Int) : ℚ) / 60000) }
          :: scanIncidents now rest2 none := by
  induction l with
  | nil => intro cur s rest2 h; exact absurd h (by simp)
  | cons c rest ih =>
    intro cur s rest2 hdw
    by_cases hc : c.up = true
    · rw [List.dropWhile_cons_of_neg (by simp [hc])] at hdw
      injection hdw with h1 h2
      subst h1
      subst h2
      simp [scanIncidents, hc]
    · have hcf : c.up = false := by simpa using hc
      rw [List.dropWhile_cons_of_pos (by simp [hcf])] at hdw
      have hstep : scanIncidents now (c :: rest) (some cur) =
          scanIncidents now rest (some cur) := by
        simp [scanIncidents, hcf]
      rw [hstep]
      exact ih cur s rest2 hdw

/-- The scan of `calculateIncidents`, started with no open incident,
computes exactly the run-based segmentation worded by the spec. -/
theorem scanIncidents_none_eq_segment (now : Int) :
    ∀ (n : Nat) (l : List HealthCheck), l.length ≤ n →
      scanIncidents now l none = segmentIncidents now l := by
  intro n
  induction n with
  | zero =>
    intro l hl
    have hnil : l = [] := List.length_eq_zero.mp (Nat.le_zero.mp hl)
    subst hnil
    simp [scanIncidents, segmentIncidents]
  | succ n ih =>
    intro l hl
    cases l with
    | nil => simp [scanIncidents, segmentIncidents]
    | cons c rest =>
      simp only [List.length_cons] at hl
      rw [segmentIncidents]
      by_cases hc : c.up = true
      · have hstep : scanIncidents now (c :: rest) none =
            scanIncidents now rest none := by
          simp [scanIncidents, hc]
        rw [hstep, ih rest (by omega)]
        simp [hc]
      · have hcf : c.up = false := by simpa using hc
        have hstep : scanIncidents now (c :: rest) none =
            scanIncidents now rest (some
              { startTime := c.timestamp
                endTime := none
                durationMinutes := 0
                errorMessage := errOrUnknown c.err }) := by
          simp [scanIncidents, hcf]
        rw [hstep]
        simp only [hcf, Bool.false_eq_true, if_false]
        split
        · rename_i heq
          rw [scanIncidents_some_end now rest _ heq]
          simp [openIncidentAt]
        · rename_i s rest2 heq
          rw [scanIncidents_some_close now rest _ s rest2 heq]
          have hsub : (List.dropWhile (fun x => !x.up) rest).length ≤
              rest.length := (List.dropWhile_sublist _).length_le
          rw [heq] at hsub
          simp only [List.length_cons] at hsub
          rw [ih rest2 (by omega)]
          simp [closeIncident]

/-- C4: incident segmentation equals the spec-worded run segmentation —
an incident opens at the first failing record of a run with that
record's timestamp and error message, closes at the first succeeding
record with `durationMinutes = round((endTime - startTime) / 60000)`,
and the list is returned most-recent-first; on the 7-record example the
two incidents carry errC (recent, closed) and errA (older, closed). -/
theorem calculateIncidents_eq_segmentation :
    (∀ (checks : List HealthCheck) (now : Int),
      calculateIncidents checks now =
        (segmentIncidents now checks.reverse).reverse) ∧
    (getStats sevenSeq (some 0) (some 6) 100).incidents =
      [{ startTime := 5, endTime := some 6, durationMinutes := 0,
         errorMessage := "errC" },
       { startTime := 1, endTime := some 3, durationMinutes := 0,
         errorMessage := "errA" }] := by
  constructor
  · intro checks now
    unfold calculateIncidents
    rw [scanIncidents_none_eq_segment now checks.reverse.length _ le_rfl]
  · norm_num [getStats, sevenSeq, inPeriod, calculateIncidents,
      scanIncidents, errOrUnknown, round_eq]
    exact ⟨fun h => absurd h (by decide), fun h => absurd h (by decide)⟩

/-- If the chronological list ends in a failing record, the scan ends
with an open incident: the emitted list ends with an incident whose
`endTime` is still `none` and whose duration is measured against
wall-clock now. -/
theorem scanIncidents_last_down (now : Int) :
    ∀ (l : List HealthCheck) (cur : Option Incident),
      (∀ cu, cur = some cu → cu.endTime = none) →
      ∀ r, l.getLast? = some r → r.up = false →
      ∃ pre inc, scanIncidents now l cur = pre ++ [inc] ∧
        inc.endTime = none ∧
        inc.durationMinutes =
          round (((now - inc.startTime : Int) : ℚ) / 60000) := by
  intro l
  induction l with
  | nil => intro cur _ r hr; exact absurd hr (by simp)
  | cons c rest ih =>
    intro cur hcur r hlast hr
    cases rest with
    | nil =>
      have hrc : c = r := by simpa using hlast
      subst hrc
      have hcf : c.up = false := hr
      cases cur with
      | none =>
        refine ⟨[],
          ⟨c.timestamp, none, round (((now - c.timestamp : Int) : ℚ) / 60000),
            errOrUnknown c.err⟩, ?_, rfl, rfl⟩
        simp [scanIncidents, hcf]
      | some cu =>
        have hend : cu.endTime = none := hcur cu rfl
        refine ⟨[], { cu with
            durationMinutes :=
              round (((now - cu.startTime : Int) : ℚ) / 60000) },
          ?_, by simpa using hend, rfl⟩
        simp [scanIncidents, hcf]
    | cons d rest2 =>
      have hlast2 : (d :: rest2).getLast? = some r := by
        rw [List.getLast?_cons_cons] at hlast
        exact hlast
      by_cases hc : c.up = true
      · cases cur with
        | none =>
          have hstep : scanIncidents now (c :: d :: rest2) none =
              scanIncidents now (d :: rest2) none := by
            simp [scanIncidents, hc]
          rw [hstep]
          exact ih none (fun cu h => by cases h) r hlast2 hr
        | some cu =>
          have hstep : scanIncidents now (c :: d :: rest2) (some cu) =
              { cu with
                  endTime := some c.timestamp
                  durationMinutes :=
                    round (((c.timestamp - cu.startTime : Int) : ℚ) /
                      60000) } ::
                scanIncidents now (d :: rest2) none := by
            simp [scanIncidents, hc]
          obtain ⟨pre, inc, hpre, hend, hdur⟩ :=
            ih none (fun cu h => by cases h) r hlast2 hr
          exact ⟨{ cu with
              endTime := some c.timestamp
              durationMinutes :=
                round (((c.timestamp - cu.startTime : Int) : ℚ) /
                  60000) } :: pre,
            inc, by rw [hstep, hpre, List.cons_append], hend, hdur⟩
      · have hcf : c.up = false := by simpa using hc
        cases cur with
        | none =>
          have hstep : scanIncidents now (c :: d :: rest2) none =
              scanIncidents now (d :: rest2) (some
                { startTime := c.timestamp
                  endTime := none
                  durationMinutes := 0
                  errorMessage := errOrUnknown c.err }) := by
            simp [scanIncidents, hcf]
          rw [hstep]
          refine ih _ (fun cu h => ?_) r hlast2 hr
          injection h with h2
          rw [← h2]
        | some cu =>
          have hstep : scanIncidents now (c :: d :: rest2) (some cu) =
              scanIncidents now (d :: rest2) (some cu) := by
            simp [scanIncidents, hcf]
          rw [hstep]
          exact ih (some cu) hcur r hlast2 hr

/-- C6: when the queried range ends with failing records (the most
recent record in range is down), the most-recent-first incident list of
`getStats` starts with an incident whose `endTime` is `none` and whose
`durationMinutes` is `round((now - startTime) / 60000)` computed from
wall-clock `now` (the theorem holds for every `now`, independently of
the range bound `e`); the chronological example up, down, down yields
exactly one incident, with `endTime = none`. -/
theorem getStats_ongoing_incident (store : List HealthCheck)
    (s e now : Int) (r : HealthCheck)
    (hhead : (inPeriod store s e).head? = some r)
    (hdown : r.up = false) :
    (∃ inc tl,
      (getStats store (some s) (some e) now).incidents = inc :: tl ∧
      inc.endTime = none ∧
      inc.durationMinutes =
        round (((now - inc.startTime : Int) : ℚ) / 60000)) ∧
    (getStats ongoingSeq (some 0) (some 2) 50).incidents =
      [{ startTime := 1, endTime := none, durationMinutes := 0,
         errorMessage := "e1" }] := by
  constructor
  · have hne : inPeriod store s e ≠ [] := by
      intro h
      rw [h] at hhead
      cases hhead
    rw [getStats_incidents_eq store s e now hne]
    unfold calculateIncidents
    have hlastrev : (inPeriod store s e).reverse.getLast? = some r := by
      rw [List.getLast?_reverse]
      exact hhead
    obtain ⟨pre, inc, hpre, hend, hdur⟩ :=
      scanIncidents_last_down now (inPeriod store s e).reverse none
        (fun cu h => by cases h) r hlastrev hdown
    rw [hpre]
    exact ⟨inc, pre.reverse, by simp, hend, hdur⟩
  · norm_num [getStats, ongoingSeq, inPeriod, calculateIncidents,
      scanIncidents, errOrUnknown, round_eq]
    exact fun h => absurd h (by decide)

/-- Witness for C6: the up, down, down example store, whose most recent
in-range record is failing. -/
theorem getStats_ongoing_incident_witness :
    (inPeriod ongoingSeq 0 2).head? =
      some ⟨2, false, 1, some "e2", none, 2⟩ ∧
    (∃ inc tl,
      (getStats ongoingSeq (some 0) (some 2) 50).incidents = inc :: tl ∧
      inc.endTime = none ∧
      inc.durationMinutes =
        round (((50 - inc.startTime : Int) : ℚ) / 60000)) :=
  ⟨by decide,
    (getStats_ongoing_incident ongoingSeq 0 2 50
      ⟨2, false, 1, some "e2", none, 2⟩ (by decide) (by decide)).1⟩

/-- Every incident emitted by the scan takes its `errorMessage` from a
failing record of the list (through the `err || "Unknown error"`
fallback), or from the open incident the scan started with. -/
theorem scanIncidents_mem_error (now : Int) :
    ∀ (l : List HealthCheck) (cur : Option Incident) (i : Incident),
      i ∈ scanIncidents now l cur →
      (∃ c, c ∈ l ∧ c.up = false ∧ i.errorMessage = errOrUnknown c.err) ∨
      (∃ cu, cur = some cu ∧ i.errorMessage = cu.errorMessage) := by
  intro l
  induction l with
  | nil =>
    intro cur i hi
    cases cur with
    | none => exact absurd hi (by simp [scanIncidents])
    | some cu =>
      simp only [scanIncidents, List.mem_singleton] at hi
      subst hi
      exact Or.inr ⟨cu, rfl, rfl⟩
  | cons c rest ih =>
    intro cur i hi
    by_cases hc : c.up = true
    · cases cur with
      | none =>
        rw [show scanIncidents now (c :: rest) none =
            scanIncidents now rest none from by simp [scanIncidents, hc]]
          at hi
        rcases ih none i hi with ⟨c2, hc2, hup, he⟩ | ⟨cu, hcu, _⟩
        · exact Or.inl ⟨c2, List.mem_cons_of_mem c hc2, hup, he⟩
        · cases hcu
      | some cu =>
        rw [show scanIncidents now (c :: rest) (some cu) =
            { cu with
                endTime := some c.timestamp
                durationMinutes :=
                  round (((c.timestamp - cu.startTime : Int) : ℚ) /
                    60000) } :: scanIncidents now rest none from by
          simp [scanIncidents, hc]] at hi
        rcases List.mem_cons.mp hi with hhd | htl
        · subst hhd
          exact Or.inr ⟨cu, rfl, rfl⟩
        · rcases ih none i htl with ⟨c2, hc2, hup, he⟩ | ⟨cu2, hcu2, _⟩
          · exact Or.inl ⟨c2, List.mem_cons_of_mem c hc2, hup, he⟩
          · cases hcu2
    · have hcf : c.up = false := by simpa using hc
      cases cur with
      | none =>
        rw [show scanIncidents now (c :: rest) none =
            scanIncidents now rest (some
              { startTime := c.timestamp
                endTime := none
                durationMinutes := 0
                errorMessage := errOrUnknown c.err }) from by
          simp [scanIncidents, hcf]] at hi
        rcases ih _ i hi with ⟨c2, hc2, hup, he⟩ | ⟨cu, hcu, he⟩
        · exact Or.inl ⟨c2, List.mem_cons_of_mem c hc2, hup, he⟩
        · injection hcu with hcu2
          rw [← hcu2] at he
          exact Or.inl ⟨c, List.mem_cons_self c rest, hcf, he⟩
      | some cu =>
        rw [show scanIncidents now (c :: rest) (some cu) =
            scanIncidents now rest (some cu) from by
          simp [scanIncidents, hcf]] at hi
        rcases ih (some cu) i hi with ⟨c2, hc2, hup, he⟩ | ⟨cu2, hcu2, he⟩
        · exact Or.inl ⟨c2, List.mem_cons_of_mem c hc2, hup, he⟩
        · injection hcu2 with hcu3
          subst hcu3
          exact Or.inr ⟨cu, rfl, he⟩

/-- C10: every incident returned by `getStats` carries an errorMessage
that is a plain string obtained from a failing record of the range
through the `err || "Unknown error"` fallback; a `null` err yields the
string `"Unknown error"`, as on the concrete single-record run whose
first failing record has `err = none`. -/
theorem incident_error_message_fallback :
    (∀ (store : List HealthCheck) (s e now : Int),
      List.Forall
        (fun i => ∃ c, c ∈ inPeriod store s e ∧ c.up = false ∧
          i.errorMessage = errOrUnknown c.err)
        (getStats store (some s) (some e) now).incidents) ∧
    errOrUnknown none = "Unknown error" ∧
    calculateIncidents [⟨1, false, 10, none, none, 1⟩] 1 =
      [{ startTime := 1, endTime := none, durationMinutes := 0,
         errorMessage := "Unknown error" }] := by
  refine ⟨?_, rfl, ?_⟩
  · intro store s e now
    rw [List.forall_iff_forall_mem]
    intro i hi
    by_cases hne : inPeriod store s e = []
    · simp only [getStats, Option.getD_some, hne] at hi
      exact absurd hi (by simp [emptyStats])
    · rw [getStats_incidents_eq store s e now hne] at hi
      unfold calculateIncidents at hi
      rw [List.mem_reverse] at hi
      rcases scanIncidents_mem_error now _ none i hi with
        ⟨c, hc, hup, he⟩ | ⟨cu, hcu, _⟩
      · rw [List.mem_reverse] at hc
        exact ⟨c, hc, hup, he⟩
      · cases hcu
  · norm_num [calculateIncidents, scanIncidents, errOrUnknown, round_eq]

/-!
Claim about notification-handler error propagation.
-/

/-- C3 (amended): the monitoring service body emits no log line of its
own on a handler failure; the handler dispatch applies every registered
handler to the same notification, so one rejection does not prevent the
remaining handlers from being invoked; the result, the persisted store
and the service log do not depend on the handlers at all, so a handler
rejection never propagates out of `processHeatCheck`; the SMTP handler
logs its own send failure and re-throws. -/
theorem handler_errors_fire_and_forget (config : MonitorConfig)
    (handlers : List Handler) (store : List HealthCheck)
    (checkResult : MonitorCheckResult) (now : Int) :
    (processHeatCheckRun config handlers store checkResult now).serviceLog
      = [] ∧
    ((processHeatCheckRun config handlers store checkResult now).handlerRuns
        = [] ∨
      ∃ n, (processHeatCheckRun config handlers store checkResult
          now).handlerRuns = handlers.map (fun h => h n)) ∧
    (∀ handlers2 : List Handler,
      (processHeatCheckRun config handlers2 store checkResult now).result =
        (processHeatCheckRun config handlers store checkResult now).result ∧
      (processHeatCheckRun config handlers2 store checkResult now).store =
        (processHeatCheckRun config handlers store checkResult now).store ∧
      (processHeatCheckRun config handlers2 store checkResult
          now).serviceLog =
        (processHeatCheckRun config handlers store checkResult
          now).serviceLog) ∧
    (∀ (emsg sName : String) (k : Nat) (err : Option String),
      (createSMTPNotificationHandler (fun _ => Except.error emsg)
          (Notification.down sName k err)).log =
        ["[SMTP] Failed to send DOWN notification: " ++ emsg] ∧
      (createSMTPNotificationHandler (fun _ => Except.error emsg)
          (Notification.down sName k err)).result = Except.error emsg) := by
  refine ⟨rfl, ?_, fun handlers2 => ⟨rfl, rfl, rfl⟩,
    fun emsg sName k err => ⟨rfl, rfl⟩⟩
  by_cases hu : checkResult.up = true
  · by_cases hT : config.gracePeriodFailures ≤ getConsecutiveFailures store
    · exact Or.inr
        ⟨Notification.up config.serviceName (getConsecutiveFailures store),
          by simp [processHeatCheckRun, dispatchNotifications, hu, hT]⟩
    · exact Or.inl
        (by simp [processHeatCheckRun, dispatchNotifications, hu, hT])
  · have hf : checkResult.up = false := by simpa using hu
    by_cases hT : getConsecutiveFailures store + 1 =
        config.gracePeriodFailures
    · exact Or.inr
        ⟨Notification.down config.serviceName
            (getConsecutiveFailures store + 1) checkResult.err,
          by simp [processHeatCheckRun, dispatchNotifications, hf, hT]⟩
    · exact Or.inl
        (by simp [processHeatCheckRun, dispatchNotifications, hf, hT])

/-- C3 counterexample: with threshold 1, an empty store and a failing
probe, a DOWN notification is dispatched to an SMTP handler whose send
rejects and to a second handler; the second handler still runs, the
first records its own `[SMTP]` log line and re-thrown error, and the
service log stays empty — the monitoring service itself catches and
logs nothing. -/
theorem handler_error_not_logged_by_service :
    (processHeatCheckRun ⟨"svc", 1⟩
        [createSMTPNotificationHandler (fun _ => Except.error "smtp down"),
         fun _ => ⟨Except.ok (), []⟩]
        [] ⟨false, 5, some "timeout", none⟩ 0).handlerRuns =
      [⟨Except.error "smtp down",
        ["[SMTP] Failed to send DOWN notification: smtp down"]⟩,
       ⟨Except.ok (), []⟩] ∧
    (processHeatCheckRun ⟨"svc", 1⟩
        [createSMTPNotificationHandler (fun _ => Except.error "smtp down"),
         fun _ => ⟨Except.ok (), []⟩]
        [] ⟨false, 5, some "timeout", none⟩ 0).serviceLog = [] := by
  constructor <;> rfl

end TrivalMonitor
